import Mathlib

/-!
Verification development for the actor and critic networks of
`networks/acnetwork_seperated.py`.

Tensors are shallowly embedded as nested lists of rationals:
a vector is `List ℚ`, a 2-D map is `List (List ℚ)` (rows), and a
channel stack is `List (List (List ℚ))` (channels of rows).
Batched data is a list of per-example tensors, except for the
categorical masking step, whose PyTorch broadcasting semantics over
the batch dimension is modelled explicitly (`pydiv2`).

Division in the masking step is modelled by `FVal`/`fdivQ`, which
mirrors IEEE float behaviour at a zero divisor (`0/0 = NaN`,
`x/0 = ±Inf`) while staying exact rational arithmetic elsewhere.
-/

namespace RLNet

abbrev QVec := List ℚ
abbrev QMat := List (List ℚ)
abbrev QT3 := List (List (List ℚ))

/-- Dot product of two vectors (truncating to the shorter length). -/
def dotQ (a b : QVec) : ℚ := (List.zipWith (· * ·) a b).sum

/-- Rectifying nonlinearity on a scalar (torch ReLU). -/
def reluQ (x : ℚ) : ℚ := max x 0

def reluV (v : QVec) : QVec := v.map reluQ

def reluM (m : QMat) : QMat := m.map reluV

def reluT3 (t : QT3) : QT3 := t.map reluM

/-- Fully connected layer `nn.Linear`: weight rows dotted with the input,
plus bias. -/
def linear (w : QMat) (b : QVec) (x : QVec) : QVec :=
  List.zipWith (fun row c => dotQ row x + c) w b

def matH (m : QMat) : Nat := m.length

def matW (m : QMat) : Nat := (m.headD []).length

def padRow (p : Nat) (r : QVec) : QVec :=
  List.replicate p 0 ++ r ++ List.replicate p 0

/-- Zero padding of a 2-D map by `p` cells on every side. -/
def padMat (p : Nat) (m : QMat) : QMat :=
  let z : QVec := List.replicate (matW m + 2 * p) 0
  List.replicate p z ++ m.map (padRow p) ++ List.replicate p z

/-- The `k × k` window of `m` whose top-left corner is `(i, j)`. -/
def window (m : QMat) (i j k : Nat) : QMat :=
  ((m.drop i).take k).map (fun r => (r.drop j).take k)

/-- Sum of the entrywise product of two 2-D maps. -/
def dot2 (a b : QMat) : ℚ :=
  (List.zipWith (fun ra rb => (List.zipWith (· * ·) ra rb).sum) a b).sum

/-- Valid cross-correlation of a `k × k` kernel with a (pre-padded) map,
stride 1. -/
def corr2 (ker : QMat) (m : QMat) (k : Nat) : QMat :=
  (List.range (matH m + 1 - k)).map (fun i =>
    (List.range (matW m + 1 - k)).map (fun j => dot2 ker (window m i j k)))

def matAdd (a b : QMat) : QMat :=
  List.zipWith (fun ra rb => List.zipWith (· + ·) ra rb) a b

def sumMats : List QMat → QMat
  | [] => []
  | m :: ms => ms.foldl matAdd m

def addConst (c : ℚ) (m : QMat) : QMat :=
  m.map (fun r => r.map (fun v => v + c))

/-- `nn.Conv2d` with square kernel `k`, stride 1 and padding `p`.
`w` lists, per output channel, one `k × k` kernel per input channel;
`b` is the per-output-channel bias. -/
def conv2d (w : List (List QMat)) (b : QVec) (k p : Nat) (x : QT3) : QT3 :=
  List.zipWith
    (fun kernels bo =>
      addConst bo (sumMats (List.zipWith (fun ker xc => corr2 ker (padMat p xc) k) kernels x)))
    w b

/-- Flatten a channel stack to one vector (torch `Flatten`). -/
def flatten3 (t : QT3) : QVec := (t.map List.flatten).flatten

/-- Modelled from the spec: `Dense2Conv` (utils.layers, not under src/)
replicates a per-example feature vector across every cell of an
`hh × ww` spatial grid, one channel per vector entry. -/
def dense2conv (hh ww : Nat) (v : QVec) : QT3 :=
  v.map (fun c => List.replicate hh (List.replicate ww c))

/-- Result of a float division: a finite rational, or one of the IEEE
non-finite values produced by dividing by an exact zero. -/
inductive FVal where
  | fin : ℚ → FVal
  | nan : FVal
  | inf : FVal
  | neginf : FVal
deriving DecidableEq, Repr

/-- Division with IEEE behaviour at a zero divisor: `0/0` is NaN and
`x/0` is `±Inf`; otherwise the exact rational quotient. -/
def fdivQ (a b : ℚ) : FVal :=
  if b = 0 then (if a = 0 then FVal.nan else if 0 < a then FVal.inf else FVal.neginf)
  else FVal.fin (a / b)

/-- `ActorNet._mask_unavailable_actions` on one example (the batch-1
case the docstring of the method assumes): multiply the raw categorical
output by the validity mask elementwise, then divide every entry by the
sum of the masked vector. -/
def maskUnavailableRow (policy valid_actions : QVec) : List FVal :=
  let masked := List.zipWith (· * ·) policy valid_actions
  masked.map (fun x => fdivQ x masked.sum)

def at2 (m : QMat) (i j : Nat) : ℚ := (m.getD i []).getD j 0

/-- PyTorch broadcast division of a `(b, n)` tensor by a `(L,)` tensor.
Right-aligning the shapes, the trailing dimensions `n` and `L` must be
equal or one of them 1, else the operation raises a shape error
(`none`); a size-1 dimension is stretched by index collapsing. -/
def pydiv2 (a : QMat) (s : QVec) : Option (List (List FVal)) :=
  let n := matW a
  let l := s.length
  if n = l ∨ n = 1 ∨ l = 1 then
    some ((List.range a.length).map (fun i =>
      (List.range (if n = 1 then l else n)).map (fun j =>
        fdivQ (at2 a i (if n = 1 then 0 else j)) (s.getD (if l = 1 then 0 else j) 0))))
  else none

/-- `ActorNet._mask_unavailable_actions` on a batched `(b, n)` policy:
`masked_policy_vb /= masked_policy_vb.sum(1)`, where `.sum(1)` drops
dimension 1 and the division follows PyTorch broadcasting. -/
def maskUnavailableBatch (policy valid_actions : QMat) : Option (List (List FVal)) :=
  let masked := List.zipWith (fun pr mr => List.zipWith (· * ·) pr mr) policy valid_actions
  pydiv2 masked (masked.map List.sum)

/-- Parameters of one two-stage convolutional encoder
(`nn.Conv2d(c, 16, 5, padding 2)`, ReLU, `nn.Conv2d(16, 32, 3, padding 1)`,
ReLU). -/
structure ConvEncParams where
  w1 : List (List QMat)
  b1 : QVec
  w2 : List (List QMat)
  b2 : QVec

/-- The shared two-stage spatial encoder pattern (`conv_minimap`,
`conv_screen`, `CriticNet.conv_action`). -/
def convEncoder (p : ConvEncParams) (x : QT3) : QT3 :=
  reluT3 (conv2d p.w2 p.b2 3 1 (reluT3 (conv2d p.w1 p.b1 5 2 x)))

structure Conv2dParams where
  w : List (List QMat)
  b : QVec

/-- An observation record: `minimap`, `screen`, `nonspatial` (one example). -/
structure Obs where
  minimap : QT3
  screen : QT3
  nonspatial : QVec

/-- A critic action record: `categorical`, `screen1`, `screen2` (one example). -/
structure Act where
  categorical : QVec
  screen1 : QT3
  screen2 : QT3

/-- Learnable tensors of one `ActorNet` instance, named after the
attributes bound in `ActorNet.__init__`. -/
structure ActorParams where
  minimap_conv_layers : ConvEncParams
  screen_conv_layers : ConvEncParams
  nonspatialW : QMat
  nonspatialB : QVec
  hidden : Conv2dParams
  actionConv : Conv2dParams
  actionLinW : QMat
  actionLinB : QVec
  layer_screen1 : Conv2dParams
  layer_screen2 : Conv2dParams

/-- Attribute lookup on an `ActorNet` for the 1x1 spatial-head namespace,
modelling `nn.Module.__getattr__`: only the names bound in `__init__`
resolve; any other name raises `AttributeError`. -/
def ActorParams.getattr (p : ActorParams) : String → Option Conv2dParams
  | "layer_screen1" => some p.layer_screen1
  | "layer_screen2" => some p.layer_screen2
  | _ => none

/-- `dense_nonspatial`: `nn.Linear(NUM_ACTIONS, 32)`, ReLU, `Dense2Conv`
onto the `hh × ww` working grid. -/
def denseNonspatial (hh ww : Nat) (w : QMat) (b : QVec) (x : QVec) : QT3 :=
  dense2conv hh ww (reluV (linear w b x))

/-- The actor state representation: encode minimap, screen and
nonspatial features, concatenate along the channel axis in that order,
then `layer_hidden` (3x3 convolution to 64 channels, ReLU). -/
def actorHidden (hh ww : Nat) (p : ActorParams) (obs : Obs) : QT3 :=
  let m := convEncoder p.minimap_conv_layers obs.minimap
  let s := convEncoder p.screen_conv_layers obs.screen
  let n := denseNonspatial hh ww p.nonspatialW p.nonspatialB obs.nonspatial
  reluT3 (conv2d p.hidden.w p.hidden.b 3 1 (m ++ s ++ n))

/-- `layer_action` applied to the hidden state: 1x1 convolution to one
channel, ReLU, flatten, dense layer to `NUM_ACTIONS` raw outputs. -/
def actorRawCategorical (hh ww : Nat) (p : ActorParams) (obs : Obs) : QVec :=
  linear p.actionLinW p.actionLinB
    (flatten3 (reluT3 (conv2d p.actionConv.w p.actionConv.b 1 0 (actorHidden hh ww p obs))))

/-- `ActorNet.forward` (one example): computes the hidden state and the
masked categorical output, then evaluates the spatial heads through the
attribute names the source actually uses, `layer_screen1_x` and
`layer_screen2_x`. -/
def actorForward (hh ww : Nat) (p : ActorParams) (obs : Obs) (valid_actions : QVec) :
    Except String (List FVal × QT3 × QT3) :=
  let state_h := actorHidden hh ww p obs
  let pol_categorical := maskUnavailableRow (actorRawCategorical hh ww p obs) valid_actions
  match p.getattr "layer_screen1_x", p.getattr "layer_screen2_x" with
  | some h1, some h2 =>
      Except.ok (pol_categorical, conv2d h1.w h1.b 1 0 state_h, conv2d h2.w h2.b 1 0 state_h)
  | _, _ => Except.error ("AttributeError: layer_screen1_x")

/-- Learnable tensors of one `CriticNet` instance, named after the
attributes bound in `CriticNet.__init__`. -/
structure CriticParams where
  minimap_conv_layers : ConvEncParams
  screen_conv_layers : ConvEncParams
  nonspatialW : QMat
  nonspatialB : QVec
  conv_action : ConvEncParams
  actionW : QMat
  actionB : QVec
  hiddenConv1 : Conv2dParams
  hiddenConv2 : Conv2dParams
  valueW : QMat
  valueB : QVec

/-- The five 32-channel critic encodings concatenated along the channel
axis in the order of the source: minimap, screen, nonspatial
observation, spatial action, nonspatial action. -/
def criticFused (hh ww : Nat) (p : CriticParams) (obs : Obs) (act : Act) : QT3 :=
  let m := convEncoder p.minimap_conv_layers obs.minimap
  let s := convEncoder p.screen_conv_layers obs.screen
  let n := denseNonspatial hh ww p.nonspatialW p.nonspatialB obs.nonspatial
  let a_spatial := convEncoder p.conv_action (act.screen1 ++ act.screen2)
  let a_nonspatial := denseNonspatial hh ww p.actionW p.actionB act.categorical
  m ++ s ++ n ++ a_spatial ++ a_nonspatial

/-- `CriticNet.layer_hidden`: 3x3 convolution to 64 channels, ReLU,
1x1 convolution to 1 channel, ReLU, flatten. -/
def criticHiddenStage (p : CriticParams) (x : QT3) : QVec :=
  flatten3 (reluT3 (conv2d p.hiddenConv2.w p.hiddenConv2.b 1 0
    (reluT3 (conv2d p.hiddenConv1.w p.hiddenConv1.b 3 1 x))))

/-- `CriticNet.forward` (one example), line by line from the source. -/
def criticForward (hh ww : Nat) (p : CriticParams) (obs : Obs) (act : Act) : QVec :=
  let m := convEncoder p.minimap_conv_layers obs.minimap
  let s := convEncoder p.screen_conv_layers obs.screen
  let n := denseNonspatial hh ww p.nonspatialW p.nonspatialB obs.nonspatial
  let a_spatial := convEncoder p.conv_action (act.screen1 ++ act.screen2)
  let a_nonspatial := denseNonspatial hh ww p.actionW p.actionB act.categorical
  let sa := m ++ s ++ n ++ a_spatial ++ a_nonspatial
  linear p.valueW p.valueB (criticHiddenStage p sa)

/-- `CriticNet.forward` over a batch, one example at a time. -/
def criticForwardBatch (hh ww : Nat) (p : CriticParams) (obss : List Obs) (acts : List Act) :
    List QVec :=
  List.zipWith (fun o a => criticForward hh ww p o a) obss acts

/-- A one-hot vector of length `n` with the 1 at index `i`. -/
def oneHot : Nat → Nat → QVec
  | 0, _ => []
  | n + 1, 0 => 1 :: List.replicate n 0
  | n + 1, i + 1 => 0 :: oneHot n i

/-- A one-hot float vector: `fin 1` at index `i`, `fin 0` elsewhere. -/
def oneHotF : Nat → Nat → List FVal
  | 0, _ => []
  | n + 1, 0 => FVal.fin 1 :: List.replicate n (FVal.fin 0)
  | n + 1, i + 1 => FVal.fin 0 :: oneHotF n i

/-!
Parameter-storage model for the construction-time claims.

Each learnable tensor created by the ambient runtime gets one storage
id; two module attributes alias exactly when they hold the same id.
A `Store` maps each storage id to the index of the initialization pass
that last wrote it (distinct passes draw distinct fresh values).
-/

abbrev Store := Nat → Nat

def allocSeq (start n : Nat) : List Nat := (List.range n).map (start + ·)

/-- Modelled from the spec: `init_weights` (utils.layers, not under
src/) re-initializes the parameters of every module it reaches;
`self.apply(init_weights)` applies it recursively over all submodules,
the referenced module-level encoders included. We record which
initialization pass (`epoch`) last wrote each parameter id. -/
def applyInitWeights (epoch : Nat) (ids : List Nat) (st : Store) : Store :=
  fun i => if i ∈ ids then epoch else st i

/-- Storage ids of the module-level encoder singletons created once
at import: `conv_minimap`, `conv_screen`, `dense_nonspatial`. -/
structure GlobalModules where
  conv_minimap : List Nat
  conv_screen : List Nat
  dense_nonspatial : List Nat

/-- Module-level allocation at import time: two tensors (weight and
bias) per convolution or dense layer, in declaration order. -/
def importGlobals (c : Nat) : GlobalModules × Nat :=
  ({ conv_minimap := allocSeq c 4
     conv_screen := allocSeq (c + 4) 4
     dense_nonspatial := allocSeq (c + 8) 2 }, c + 10)

/-- Storage ids held by the attributes of one `ActorNet` instance. -/
structure ActorRefs where
  minimap_conv_layers : List Nat
  screen_conv_layers : List Nat
  nonspatial_dense : List Nat
  layer_hidden : List Nat
  layer_action : List Nat
  layer_screen1 : List Nat
  layer_screen2 : List Nat

/-- Ids of the tensors `ActorNet.__init__` allocates itself. -/
def ActorRefs.ownIds (a : ActorRefs) : List Nat :=
  a.layer_hidden ++ a.layer_action ++ a.layer_screen1 ++ a.layer_screen2

/-- All parameter ids reachable from an `ActorNet` instance. -/
def ActorRefs.paramIds (a : ActorRefs) : List Nat :=
  a.minimap_conv_layers ++ a.screen_conv_layers ++ a.nonspatial_dense ++ a.ownIds

/-- `ActorNet.__init__`: bind the module-level encoders by reference,
allocate fresh tensors for the own layers (`layer_hidden`: 1 conv;
`layer_action`: 1 conv + 1 dense; `layer_screen1`, `layer_screen2`:
1 conv each), then `self.apply(init_weights)` over every submodule. -/
def mkActorNet (g : GlobalModules) (c epoch : Nat) (st : Store) : ActorRefs × Nat × Store :=
  let refs : ActorRefs :=
    { minimap_conv_layers := g.conv_minimap
      screen_conv_layers := g.conv_screen
      nonspatial_dense := g.dense_nonspatial
      layer_hidden := allocSeq c 2
      layer_action := allocSeq (c + 2) 4
      layer_screen1 := allocSeq (c + 6) 2
      layer_screen2 := allocSeq (c + 8) 2 }
  (refs, c + 10, applyInitWeights epoch refs.paramIds st)

/-- Storage ids held by the attributes of one `CriticNet` instance. -/
structure CriticRefs where
  minimap_conv_layers : List Nat
  screen_conv_layers : List Nat
  nonspatial_dense : List Nat
  conv_action : List Nat
  action_dense : List Nat
  layer_hidden : List Nat
  layer_value : List Nat

/-- Ids of the tensors `CriticNet.__init__` allocates itself. -/
def CriticRefs.ownIds (a : CriticRefs) : List Nat :=
  a.conv_action ++ a.action_dense ++ a.layer_hidden ++ a.layer_value

/-- All parameter ids reachable from a `CriticNet` instance. -/
def CriticRefs.paramIds (a : CriticRefs) : List Nat :=
  a.minimap_conv_layers ++ a.screen_conv_layers ++ a.nonspatial_dense ++ a.ownIds

/-- `CriticNet.__init__`: bind the module-level encoders by reference,
allocate fresh tensors for the own layers (`conv_action`: 2 convs;
`action_dense`: 1 dense; `layer_hidden`: 2 convs; `layer_value`:
1 dense), then `self.apply(init_weights)` over every submodule. -/
def mkCriticNet (g : GlobalModules) (c epoch : Nat) (st : Store) : CriticRefs × Nat × Store :=
  let refs : CriticRefs :=
    { minimap_conv_layers := g.conv_minimap
      screen_conv_layers := g.conv_screen
      nonspatial_dense := g.dense_nonspatial
      conv_action := allocSeq c 4
      action_dense := allocSeq (c + 4) 2
      layer_hidden := allocSeq (c + 6) 4
      layer_value := allocSeq (c + 10) 2 }
  (refs, c + 12, applyInitWeights epoch refs.paramIds st)

/-- The module-level encoders of the program, allocated at import. -/
def theGlobals : GlobalModules := (importGlobals 0).1

/-- One `ActorNet` built after import, as initialization pass `e`. -/
def actorBuild (e : Nat) (st : Store) : ActorRefs × Nat × Store :=
  mkActorNet theGlobals (importGlobals 0).2 e st

/-- One `CriticNet` built after the actor, as initialization pass `e`. -/
def criticBuild (e : Nat) (st : Store) : CriticRefs × Nat × Store :=
  mkCriticNet theGlobals (actorBuild 1 st).2.1 e st

/-!
Concrete network instances used by witnesses and counterexamples.
All convolution weights and biases are zero except the final dense bias
of `layer_action`, so the categorical path evaluates symbolically.
-/

def zerosQ (n : Nat) : QVec := List.replicate n (0 : ℚ)

def zeroMat (h w : Nat) : QMat := List.replicate h (zerosQ w)

def zeroT3 (c h w : Nat) : QT3 := List.replicate c (zeroMat h w)

def zeroConvW (o i k : Nat) : List (List QMat) :=
  List.replicate o (List.replicate i (zeroMat k k))

/-- A zero-weight instance of the shared two-stage encoder with `cin`
input channels. -/
def zeroEnc (cin : Nat) : ConvEncParams :=
  { w1 := zeroConvW 16 cin 5, b1 := zerosQ 16, w2 := zeroConvW 32 16 3, b2 := zerosQ 32 }

/-- A fully shaped `ActorNet` parameter instance on a 1 x 1 grid with
`NUM_ACTIONS = 2`: all weights zero, `layer_action` dense bias `bias`. -/
def actorZeroP (bias : QVec) : ActorParams :=
  { minimap_conv_layers := zeroEnc 7
    screen_conv_layers := zeroEnc 17
    nonspatialW := List.replicate 32 (zerosQ 2)
    nonspatialB := zerosQ 32
    hidden := ⟨zeroConvW 64 96 3, zerosQ 64⟩
    actionConv := ⟨zeroConvW 1 64 1, zerosQ 1⟩
    actionLinW := List.replicate 2 (zerosQ 1)
    actionLinB := bias
    layer_screen1 := ⟨zeroConvW 1 64 1, zerosQ 1⟩
    layer_screen2 := ⟨zeroConvW 1 64 1, zerosQ 1⟩ }

/-- The all-zero observation of the architecture shapes (minimap 7
channels, screen 17 channels) on a 1 x 1 grid with `NUM_ACTIONS = 2`. -/
def obsZero : Obs := ⟨zeroT3 7 1 1, zeroT3 17 1 1, zerosQ 2⟩

/-- A fully shaped `CriticNet` parameter instance on a 1 x 1 grid with
`NUM_ACTIONS = 2`: all weights and biases zero. -/
def criticZeroP : CriticParams :=
  { minimap_conv_layers := zeroEnc 7
    screen_conv_layers := zeroEnc 17
    nonspatialW := List.replicate 32 (zerosQ 2)
    nonspatialB := zerosQ 32
    conv_action := zeroEnc 2
    actionW := List.replicate 32 (zerosQ 2)
    actionB := zerosQ 32
    hiddenConv1 := ⟨zeroConvW 64 160 3, zerosQ 64⟩
    hiddenConv2 := ⟨zeroConvW 1 64 1, zerosQ 1⟩
    valueW := List.replicate 1 (zerosQ 1)
    valueB := zerosQ 1 }

/-- The all-zero critic action input on a 1 x 1 grid. -/
def actZero : Act := ⟨zerosQ 2, zeroT3 1 1 1, zeroT3 1 1 1⟩

/-! ### Helper lemmas: zero propagation through the layers -/

theorem sum_replicate_zero (n : Nat) : (List.replicate n (0 : ℚ)).sum = 0 := by
  induction n with
  | zero => rfl
  | succ n ih => rw [List.replicate_succ, List.sum_cons, ih, add_zero]

theorem zipWith_mul_replicate_zero_left (k : Nat) (l : QVec) :
    List.zipWith (· * ·) (List.replicate k (0 : ℚ)) l = List.replicate (min k l.length) 0 := by
  induction k generalizing l with
  | zero => simp
  | succ k ih =>
    cases l with
    | nil => simp
    | cons a l =>
      simp only [List.replicate_succ, List.zipWith_cons_cons, zero_mul, List.length_cons,
        Nat.succ_min_succ]
      rw [ih l]

theorem zipWith_mul_replicate_zero_right (l : QVec) (k : Nat) :
    List.zipWith (· * ·) l (List.replicate k (0 : ℚ)) = List.replicate (min l.length k) 0 := by
  induction l generalizing k with
  | nil => simp
  | cons a l ih =>
    cases k with
    | zero => simp
    | succ k =>
      simp only [List.replicate_succ, List.zipWith_cons_cons, mul_zero, List.length_cons,
        Nat.succ_min_succ]
      rw [ih k]

theorem dotQ_replicate_zero (k : Nat) (l : QVec) : dotQ (List.replicate k 0) l = 0 := by
  rw [dotQ, zipWith_mul_replicate_zero_left, sum_replicate_zero]

theorem zipWith_rowmul_replicate_zero (n k : Nat) (m : QMat) :
    List.zipWith (fun ra rb => (List.zipWith (· * ·) ra rb).sum)
        (List.replicate n (List.replicate k (0 : ℚ))) m
      = List.replicate (min n m.length) 0 := by
  induction n generalizing m with
  | zero => simp
  | succ n ih =>
    cases m with
    | nil => simp
    | cons r m =>
      simp only [List.replicate_succ, List.zipWith_cons_cons, List.length_cons,
        Nat.succ_min_succ]
      rw [zipWith_mul_replicate_zero_left, sum_replicate_zero, ih m]

theorem dot2_zeroMat (n k : Nat) (m : QMat) : dot2 (zeroMat n k) m = 0 := by
  simp only [dot2, zeroMat, zerosQ, zipWith_rowmul_replicate_zero, sum_replicate_zero]

theorem matH_zeroMat (h w : Nat) : matH (zeroMat h w) = h := by
  simp [matH, zeroMat]

theorem matW_zeroMat (h w : Nat) (hh : 0 < h) : matW (zeroMat h w) = w := by
  cases h with
  | zero => omega
  | succ h => simp [matW, zeroMat, List.replicate_succ, zerosQ]

theorem corr2_zero_ker (n k : Nat) (m : QMat) :
    corr2 (zeroMat n k) m k = zeroMat (matH m + 1 - k) (matW m + 1 - k) := by
  simp only [corr2, dot2_zeroMat, List.map_const', List.length_range]
  rfl

theorem padRow_replicate_zero (p w : Nat) :
    padRow p (List.replicate w (0 : ℚ)) = List.replicate (w + 2 * p) 0 := by
  simp only [padRow, ← List.replicate_add]
  congr 1
  omega

theorem padMat_zeroMat (p h w : Nat) (hh : 0 < h) :
    padMat p (zeroMat h w) = zeroMat (h + 2 * p) (w + 2 * p) := by
  simp only [padMat, matW_zeroMat h w hh]
  simp only [zeroMat, zerosQ, List.map_replicate, padRow_replicate_zero,
    ← List.replicate_add]
  congr 1
  omega

theorem matAdd_zeroMat (h w : Nat) : matAdd (zeroMat h w) (zeroMat h w) = zeroMat h w := by
  simp [matAdd, zeroMat, zerosQ]

theorem foldl_matAdd_replicate (n h w : Nat) :
    List.foldl matAdd (zeroMat h w) (List.replicate n (zeroMat h w)) = zeroMat h w := by
  induction n with
  | zero => rfl
  | succ n ih => rw [List.replicate_succ, List.foldl_cons, matAdd_zeroMat]; exact ih

theorem sumMats_replicate_zeroMat (n h w : Nat) (hn : 0 < n) :
    sumMats (List.replicate n (zeroMat h w)) = zeroMat h w := by
  cases n with
  | zero => omega
  | succ n =>
    simp only [List.replicate_succ, sumMats]
    exact foldl_matAdd_replicate n h w

theorem addConst_zero (m : QMat) : addConst 0 m = m := by
  simp [addConst]

theorem conv2d_zeroW (o i c k p h w : Nat) (hic : 0 < min i c) (hh : 0 < h) :
    conv2d (zeroConvW o i k) (zerosQ o) k p (zeroT3 c h w)
      = zeroT3 o (h + 2 * p + 1 - k) (w + 2 * p + 1 - k) := by
  have hcorr : corr2 (zeroMat k k) (padMat p (zeroMat h w)) k
      = zeroMat (h + 2 * p + 1 - k) (w + 2 * p + 1 - k) := by
    rw [padMat_zeroMat p h w hh, corr2_zero_ker, matH_zeroMat, matW_zeroMat _ _ (by omega)]
  simp only [conv2d, zeroConvW, zerosQ, zeroT3, List.zipWith_replicate, min_self, hcorr,
    sumMats_replicate_zeroMat _ _ _ hic, addConst_zero]

theorem reluQ_zero : reluQ 0 = 0 := by
  simp [reluQ]

theorem reluV_zerosQ (n : Nat) : reluV (zerosQ n) = zerosQ n := by
  simp [reluV, zerosQ, reluQ_zero]

theorem reluT3_zeroT3 (c h w : Nat) : reluT3 (zeroT3 c h w) = zeroT3 c h w := by
  simp [reluT3, reluM, zeroT3, zeroMat, reluV_zerosQ]

theorem convEncoder_zeroEnc (cin h w : Nat) (hc : 0 < cin) (hh : 0 < h) :
    convEncoder (zeroEnc cin) (zeroT3 cin h w) = zeroT3 32 h w := by
  have h1 : conv2d (zeroConvW 16 cin 5) (zerosQ 16) 5 2 (zeroT3 cin h w)
      = zeroT3 16 h w := by
    have := conv2d_zeroW 16 cin cin 5 2 h w (by omega) hh
    have e1 : h + 2 * 2 + 1 - 5 = h := by omega
    have e2 : w + 2 * 2 + 1 - 5 = w := by omega
    rwa [e1, e2] at this
  have h2 : conv2d (zeroConvW 32 16 3) (zerosQ 32) 3 1 (zeroT3 16 h w)
      = zeroT3 32 h w := by
    have := conv2d_zeroW 32 16 16 3 1 h w (by omega) hh
    have e1 : h + 2 * 1 + 1 - 3 = h := by omega
    have e2 : w + 2 * 1 + 1 - 3 = w := by omega
    rwa [e1, e2] at this
  show reluT3 (conv2d (zeroConvW 32 16 3) (zerosQ 32) 3 1
      (reluT3 (conv2d (zeroConvW 16 cin 5) (zerosQ 16) 5 2 (zeroT3 cin h w)))) = _
  rw [h1, reluT3_zeroT3, h2, reluT3_zeroT3]

theorem linear_zeroRows (n m : Nat) (x : QVec) :
    linear (List.replicate n (zerosQ m)) (zerosQ n) x = zerosQ n := by
  simp [linear, zerosQ, List.zipWith_replicate, dotQ_replicate_zero]

theorem dense2conv_zerosQ (hh ww n : Nat) :
    dense2conv hh ww (zerosQ n) = zeroT3 n hh ww := by
  simp [dense2conv, zerosQ, zeroT3, zeroMat]

theorem denseNonspatial_zeroRows (hh ww n m : Nat) (x : QVec) :
    denseNonspatial hh ww (List.replicate n (zerosQ m)) (zerosQ n) x = zeroT3 n hh ww := by
  simp [denseNonspatial, linear_zeroRows, reluV_zerosQ, dense2conv_zerosQ]

theorem zeroT3_append (a b h w : Nat) :
    zeroT3 a h w ++ zeroT3 b h w = zeroT3 (a + b) h w := by
  simp [zeroT3, ← List.replicate_add]

theorem flatten3_zeroT3 (c h w : Nat) : flatten3 (zeroT3 c h w) = zerosQ (c * (h * w)) := by
  simp [flatten3, zeroT3, zeroMat, zerosQ, List.flatten_replicate_replicate]

theorem actorHidden_zeroP (bias : QVec) :
    actorHidden 1 1 (actorZeroP bias) obsZero = zeroT3 64 1 1 := by
  have hm : convEncoder (zeroEnc 7) (zeroT3 7 1 1) = zeroT3 32 1 1 :=
    convEncoder_zeroEnc 7 1 1 (by omega) (by omega)
  have hs : convEncoder (zeroEnc 17) (zeroT3 17 1 1) = zeroT3 32 1 1 :=
    convEncoder_zeroEnc 17 1 1 (by omega) (by omega)
  have hn : denseNonspatial 1 1 (List.replicate 32 (zerosQ 2)) (zerosQ 32) (zerosQ 2)
      = zeroT3 32 1 1 := denseNonspatial_zeroRows 1 1 32 2 (zerosQ 2)
  have hcat : zeroT3 32 1 1 ++ zeroT3 32 1 1 ++ zeroT3 32 1 1 = zeroT3 96 1 1 := by
    rw [zeroT3_append, zeroT3_append]
  have hconv : conv2d (zeroConvW 64 96 3) (zerosQ 64) 3 1 (zeroT3 96 1 1)
      = zeroT3 64 1 1 := conv2d_zeroW 64 96 96 3 1 1 1 (by omega) (by omega)
  show reluT3 (conv2d (zeroConvW 64 96 3) (zerosQ 64) 3 1
      (convEncoder (zeroEnc 7) (zeroT3 7 1 1) ++ convEncoder (zeroEnc 17) (zeroT3 17 1 1)
        ++ denseNonspatial 1 1 (List.replicate 32 (zerosQ 2)) (zerosQ 32) (zerosQ 2))) = _
  rw [hm, hs, hn, hcat, hconv, reluT3_zeroT3]

theorem zipWith_replicate_left {α β γ : Type} (f : α → β → γ) (n : Nat) (a : α) (l : List β) :
    List.zipWith f (List.replicate n a) l = (l.take n).map (f a) := by
  induction n generalizing l with
  | zero => simp
  | succ n ih =>
    cases l with
    | nil => simp
    | cons b l => simp [List.replicate_succ, ih]

theorem actorRaw_zeroP (bias : QVec) (hb : bias.length = 2) :
    actorRawCategorical 1 1 (actorZeroP bias) obsZero = bias := by
  have hconv : conv2d (zeroConvW 1 64 1) (zerosQ 1) 1 0 (zeroT3 64 1 1)
      = zeroT3 1 1 1 := by
    have := conv2d_zeroW 1 64 64 1 0 1 1 (by omega) (by omega)
    simpa using this
  have hflat : flatten3 (zeroT3 1 1 1) = zerosQ 1 := by
    simpa [zerosQ] using flatten3_zeroT3 1 1 1
  have hstep : actorRawCategorical 1 1 (actorZeroP bias) obsZero
      = linear (List.replicate 2 (zerosQ 1)) bias (zerosQ 1) := by
    show linear (List.replicate 2 (zerosQ 1)) bias
        (flatten3 (reluT3 (conv2d (zeroConvW 1 64 1) (zerosQ 1) 1 0
          (actorHidden 1 1 (actorZeroP bias) obsZero)))) = _
    rw [actorHidden_zeroP bias, hconv, reluT3_zeroT3, hflat]
  rw [hstep, linear, zipWith_replicate_left]
  have ht : bias.take 2 = bias := by
    rw [← hb, List.take_length]
  rw [ht]
  have hd : dotQ [0] [0] = (0 : ℚ) := by simp [dotQ]
  simp [zerosQ, hd]

/-! ### Helper lemmas: masking algebra -/

theorem exists_of_mem_zipWith {α β γ : Type} {f : α → β → γ} {x : γ} :
    ∀ {as : List α} {bs : List β}, x ∈ List.zipWith f as bs → ∃ a ∈ as, ∃ b ∈ bs, x = f a b := by
  intro as
  induction as with
  | nil => intro bs h; simp at h
  | cons a as ih =>
    intro bs h
    cases bs with
    | nil => simp at h
    | cons b bs =>
      rw [List.zipWith_cons_cons, List.mem_cons] at h
      rcases h with h | h
      · exact ⟨a, by simp, b, by simp, h⟩
      · rcases ih h with ⟨p, hp, q, hq, hx⟩
        exact ⟨p, by simp [hp], q, by simp [hq], hx⟩

theorem sum_map_div (l : List ℚ) (s : ℚ) : (l.map (· / s)).sum = l.sum / s := by
  induction l with
  | nil => simp
  | cons a l ih => simp [List.sum_cons, ih, add_div]

theorem maskRow_eq_of_sum_ne (policy mask : QVec)
    (hS : (List.zipWith (· * ·) policy mask).sum ≠ 0) :
    maskUnavailableRow policy mask
      = ((List.zipWith (· * ·) policy mask).map
          (fun x => x / (List.zipWith (· * ·) policy mask).sum)).map FVal.fin := by
  show (List.zipWith (· * ·) policy mask).map
      (fun x => fdivQ x (List.zipWith (· * ·) policy mask).sum) = _
  rw [List.map_map]
  apply List.map_congr_left
  intro a _
  simp [Function.comp, fdivQ, hS]

theorem binary_sum_zero_all_zero (mask : QVec) (hb : ∀ m ∈ mask, m = 0 ∨ m = 1)
    (h0 : mask.sum = 0) : ∀ m ∈ mask, m = (0 : ℚ) := by
  induction mask with
  | nil => simp
  | cons a l ih =>
    have hnn : ∀ m ∈ l, (0 : ℚ) ≤ m := by
      intro m hm
      rcases hb m (by simp [hm]) with h | h <;> simp [h]
    have hls : (0 : ℚ) ≤ l.sum := List.sum_nonneg hnn
    have han : (0 : ℚ) ≤ a := by
      rcases hb a (by simp) with h | h <;> simp [h]
    rw [List.sum_cons] at h0
    have ha0 : a = 0 := by linarith
    have hl0 : l.sum = 0 := by linarith
    intro m hm
    rcases List.mem_cons.mp hm with h | h
    · rw [h, ha0]
    · exact ih (fun x hx => hb x (by simp [hx])) hl0 m h

theorem zipWith_mul_all_zero_right (p m : QVec) (hz : ∀ x ∈ m, x = (0 : ℚ)) :
    List.zipWith (· * ·) p m = List.replicate (min p.length m.length) 0 := by
  induction p generalizing m with
  | nil => simp
  | cons a p ih =>
    cases m with
    | nil => simp
    | cons b m =>
      have hb : b = 0 := hz b (by simp)
      simp only [List.zipWith_cons_cons, hb, mul_zero, List.length_cons, Nat.succ_min_succ,
        List.replicate_succ]
      rw [ih m (fun x hx => hz x (by simp [hx]))]

theorem map_range_getD (l : QVec) (f : ℚ → FVal) :
    (List.range l.length).map (fun j => f (l.getD j 0)) = l.map f := by
  induction l with
  | nil => simp
  | cons a l ih =>
    rw [List.length_cons, List.range_succ_eq_map, List.map_cons, List.map_map]
    simp only [List.getD_cons_zero, Function.comp_def, List.getD_cons_succ]
    rw [ih, List.map_cons]

/-! ### Helper lemmas: one-hot masks -/

theorem length_oneHot (n i : Nat) : (oneHot n i).length = n := by
  induction n generalizing i with
  | zero => simp [oneHot]
  | succ n ih =>
    cases i with
    | zero => simp [oneHot]
    | succ i => simp [oneHot, ih]

theorem zipWith_mul_oneHot (p : QVec) (i : Nat) (hi : i < p.length) :
    List.zipWith (· * ·) p (oneHot p.length i)
      = (List.replicate p.length (0 : ℚ)).set i (p.getD i 0) := by
  induction p generalizing i with
  | nil => simp at hi
  | cons a p ih =>
    cases i with
    | zero =>
      simp only [List.length_cons, oneHot, List.zipWith_cons_cons, mul_one,
        List.getD_cons_zero, List.replicate_succ, List.set_cons_zero]
      rw [zipWith_mul_replicate_zero_right]
      simp
    | succ i =>
      have hi2 : i < p.length := by simpa using hi
      simp only [List.length_cons, oneHot, List.zipWith_cons_cons, mul_zero,
        List.getD_cons_succ, List.replicate_succ, List.set_cons_succ]
      rw [ih i hi2]

theorem sum_set_replicate_zero (n i : Nat) (a : ℚ) (hi : i < n) :
    ((List.replicate n (0 : ℚ)).set i a).sum = a := by
  induction n generalizing i with
  | zero => omega
  | succ n ih =>
    cases i with
    | zero => simp [List.replicate_succ, sum_replicate_zero]
    | succ i =>
      have hi2 : i < n := by omega
      simp only [List.replicate_succ, List.set_cons_succ, List.sum_cons, ih i hi2, zero_add]

theorem map_fdiv_set_replicate (n i : Nat) (a : ℚ) (ha : a ≠ 0) (hi : i < n) :
    ((List.replicate n (0 : ℚ)).set i a).map (fun x => fdivQ x a) = oneHotF n i := by
  induction n generalizing i with
  | zero => omega
  | succ n ih =>
    cases i with
    | zero =>
      simp only [List.replicate_succ, List.set_cons_zero, List.map_cons, List.map_replicate,
        oneHotF]
      rw [show fdivQ a a = FVal.fin 1 by simp [fdivQ, ha, div_self],
        show fdivQ 0 a = FVal.fin 0 by simp [fdivQ, ha]]
    | succ i =>
      have hi2 : i < n := by omega
      simp only [List.replicate_succ, List.set_cons_succ, List.map_cons, oneHotF]
      rw [show fdivQ 0 a = FVal.fin 0 by simp [fdivQ, ha], ih i hi2]

/-! ### Helper lemmas: storage allocation -/

theorem mem_allocSeq (s n i : Nat) : i ∈ allocSeq s n ↔ s ≤ i ∧ i < s + n := by
  simp only [allocSeq, List.mem_map, List.mem_range]
  constructor
  · rintro ⟨a, ha, rfl⟩
    omega
  · intro h
    exact ⟨i - s, by omega, by omega⟩

theorem applyInitWeights_mem (epoch : Nat) (ids : List Nat) (st : Store) (i : Nat)
    (h : i ∈ ids) : applyInitWeights epoch ids st i = epoch := by
  simp [applyInitWeights, h]

theorem applyInitWeights_not_mem (epoch : Nat) (ids : List Nat) (st : Store) (i : Nat)
    (h : i ∉ ids) : applyInitWeights epoch ids st i = st i := by
  simp [applyInitWeights, h]

theorem getD_replicate_zero (n j : Nat) : (List.replicate n (0 : ℚ)).getD j 0 = 0 := by
  rw [List.getD_eq_getElem?_getD, List.getElem?_replicate]
  split <;> rfl

theorem pydiv2_singleton (row : QVec) (s0 : ℚ) :
    pydiv2 [row] [s0] = some [row.map (fun x => fdivQ x s0)] := by
  rcases eq_or_ne row.length 1 with hn | hn
  · obtain ⟨x, rfl⟩ := List.length_eq_one.mp hn
    simp [pydiv2, matW, at2, List.range_succ]
  · have hmw : matW [row] = row.length := by simp [matW]
    have hl : ([s0] : QVec).length = 1 := rfl
    simp only [pydiv2, hmw]
    rw [if_pos (Or.inr (Or.inr hl))]
    simp only [if_neg hn]
    have h1 : List.range ([row] : QMat).length = [0] := rfl
    rw [h1, List.map_cons, List.map_nil]
    congr 1
    have hentry : ∀ j : Nat,
        fdivQ (at2 [row] 0 j) (([s0] : QVec).getD (if ([s0] : QVec).length = 1 then 0 else j) 0)
          = fdivQ (row.getD j 0) s0 := by
      intro j
      simp [at2]
    rw [List.map_congr_left (fun j _ => hentry j),
      map_range_getD row (fun x => fdivQ x s0)]

/-! ### Claim theorems -/

/-- C1: the claim states that `ActorNet.forward` returns the masked
categorical distribution together with the two spatial logit maps
obtained by applying `layer_screen1` and `layer_screen2` to the hidden
state. The code instead reads the attributes `layer_screen1_x` and
`layer_screen2_x`, which `__init__` never binds, so every call raises
`AttributeError` before returning: the forward pass errors on all
inputs. -/
theorem C1_forward_attribute_error (hh ww : Nat) (p : ActorParams) (obs : Obs)
    (valid_actions : QVec) :
    actorForward hh ww p obs valid_actions
      = Except.error ("AttributeError: layer_screen1_x") := rfl

/-- C4 (amended): a position masked to 0 gets output probability
exactly 0, provided the per-example sum of the masked product
(the actual divisor of the renormalization) is non-zero; the mask
having non-zero sum is not enough. -/
theorem C4_masked_positions_zero (policy mask : QVec) (i : Nat)
    (hi : i < policy.length) (hm : mask[i]? = some 0)
    (hS : (List.zipWith (· * ·) policy mask).sum ≠ 0) :
    (maskUnavailableRow policy mask)[i]? = some (FVal.fin 0) := by
  show ((List.zipWith (· * ·) policy mask).map
      (fun x => fdivQ x (List.zipWith (· * ·) policy mask).sum))[i]? = _
  rw [List.getElem?_map, List.getElem?_zipWith, List.getElem?_eq_getElem hi, hm]
  simp [fdivQ, hS]

/-- C4 counterexample: for raw output `[0, 5]` and mask `[1, 0]` the
mask sum is non-zero, yet the entry at the masked position 1 is NaN
(0/0), not exactly 0, because the masked product sums to zero. -/
theorem C4_cex :
    (([1, 0] : QVec).sum ≠ 0) ∧ (([1, 0] : QVec))[1]? = some 0 ∧
    (maskUnavailableRow [0, 5] [1, 0])[1]? = some FVal.nan ∧ FVal.nan ≠ FVal.fin 0 := by
  refine ⟨by norm_num, by norm_num, ?_, by simp⟩
  show ((List.zipWith (· * ·) [0, 5] [1, 0]).map
      (fun x => fdivQ x (List.zipWith (· * ·) [0, 5] [1, 0]).sum))[1]? = _
  norm_num [fdivQ]

/-- C4 witness: raw output `[5, 7]`, mask `[1, 0]`, masked sum 5. -/
theorem C4_masked_positions_zero_witness :
    (1 < ([5, 7] : QVec).length) ∧ ((([1, 0] : QVec))[1]? = some 0) ∧
    ((List.zipWith (· * ·) ([5, 7] : QVec) ([1, 0] : QVec)).sum ≠ 0) ∧
    (maskUnavailableRow [5, 7] [1, 0])[1]? = some (FVal.fin 0) := by
  have h1 : 1 < ([5, 7] : QVec).length := by norm_num
  have h2 : (([1, 0] : QVec))[1]? = some 0 := by norm_num
  have h3 : (List.zipWith (· * ·) ([5, 7] : QVec) ([1, 0] : QVec)).sum ≠ 0 := by norm_num
  exact ⟨h1, h2, h3, C4_masked_positions_zero [5, 7] [1, 0] 1 h1 h2 h3⟩

/-- C5: when the validity mask of an example sums to zero (an all-zero
binary mask), the divisor of the renormalization is exactly zero, and
the masking operation still returns a value (no error) in which every
entry is NaN. -/
theorem C5_zero_mask_nan (policy mask : QVec) (hlen : mask.length = policy.length)
    (hb : ∀ m ∈ mask, m = 0 ∨ m = 1) (h0 : mask.sum = 0) :
    (List.zipWith (· * ·) policy mask).sum = 0 ∧
    maskUnavailableBatch [policy] [mask]
      = some [List.replicate policy.length FVal.nan] := by
  have hz : ∀ x ∈ mask, x = (0 : ℚ) := binary_sum_zero_all_zero mask hb h0
  have hmask : List.zipWith (· * ·) policy mask = List.replicate policy.length 0 := by
    rw [zipWith_mul_all_zero_right policy mask hz, hlen, min_self]
  refine ⟨by rw [hmask, sum_replicate_zero], ?_⟩
  show pydiv2 [List.zipWith (· * ·) policy mask]
      ([List.zipWith (· * ·) policy mask].map List.sum) = _
  rw [hmask]
  have hsum : ([List.replicate policy.length (0 : ℚ)].map List.sum) = [0] := by
    simp [sum_replicate_zero]
  rw [hsum, pydiv2_singleton, List.map_replicate,
    (by simp [fdivQ] : fdivQ (0 : ℚ) 0 = FVal.nan)]

/-- C5 witness: raw output `[3, 4]`, all-zero mask `[0, 0]`. -/
theorem C5_zero_mask_nan_witness :
    (([0, 0] : QVec).length = ([3, 4] : QVec).length) ∧
    (∀ m ∈ ([0, 0] : QVec), m = 0 ∨ m = 1) ∧ (([0, 0] : QVec).sum = 0) ∧
    ((List.zipWith (· * ·) ([3, 4] : QVec) ([0, 0] : QVec)).sum = 0 ∧
      maskUnavailableBatch [[3, 4]] [[0, 0]]
        = some [List.replicate (([3, 4] : QVec)).length FVal.nan]) :=
  ⟨rfl, by norm_num, by norm_num,
    C5_zero_mask_nan [3, 4] [0, 0] rfl (by norm_num) (by norm_num)⟩

/-- C6 (amended): masking with a one-hot validity mask yields exactly
the one-hot probability vector at that index, provided the raw output
at the hot index is non-zero; for a zero raw output at the hot index
the divisor is 0/0 and the result is NaN, not 1. -/
theorem C6_one_hot_mask (p : QVec) (i : Nat) (hi : i < p.length) (hp : p.getD i 0 ≠ 0) :
    maskUnavailableRow p (oneHot p.length i) = oneHotF p.length i := by
  show (List.zipWith (· * ·) p (oneHot p.length i)).map
      (fun x => fdivQ x (List.zipWith (· * ·) p (oneHot p.length i)).sum) = _
  rw [zipWith_mul_oneHot p i hi, sum_set_replicate_zero p.length i _ hi,
    map_fdiv_set_replicate p.length i _ hp hi]

/-- C6 witness: raw output `[2, 3]`, one-hot mask at index 1. -/
theorem C6_one_hot_mask_witness :
    (1 < ([2, 3] : QVec).length) ∧ (([2, 3] : QVec).getD 1 0 ≠ 0) ∧
    maskUnavailableRow [2, 3] (oneHot (([2, 3] : QVec)).length 1)
      = oneHotF (([2, 3] : QVec)).length 1 :=
  ⟨by norm_num, by norm_num, C6_one_hot_mask [2, 3] 1 (by norm_num) (by norm_num)⟩

/-- C6 counterexample: with all raw logits 0 and a one-hot mask at
index 5 the output is all NaN, not the one-hot vector at index 5, so
the output is not independent of the raw logits. -/
theorem C6_cex :
    maskUnavailableRow [0, 0, 0, 0, 0, 0] (oneHot 6 5) = List.replicate 6 FVal.nan ∧
    FVal.nan ≠ FVal.fin 1 := by
  refine ⟨?_, by simp⟩
  show (List.zipWith (· * ·) [0, 0, 0, 0, 0, 0] (oneHot 6 5)).map
      (fun x => fdivQ x (List.zipWith (· * ·) [0, 0, 0, 0, 0, 0] (oneHot 6 5)).sum) = _
  norm_num [oneHot, fdivQ, List.replicate]

/-- C3 (amended): the categorical output of the actor path is a
probability vector (finite, non-negative entries summing to 1)
provided the raw categorical outputs are all non-negative and the
per-example sum of the masked raw outputs — the actual divisor — is
non-zero; neither condition is guaranteed by a non-degenerate mask,
because the final dense layer of `layer_action` can emit negative
values. -/
theorem C3_masked_distribution (hh ww : Nat) (p : ActorParams) (obs : Obs) (mask : QVec)
    (hraw : ∀ q ∈ actorRawCategorical hh ww p obs, 0 ≤ q)
    (hb : ∀ m ∈ mask, m = 0 ∨ m = 1)
    (hS : (List.zipWith (· * ·) (actorRawCategorical hh ww p obs) mask).sum ≠ 0) :
    ∃ qs : QVec,
      maskUnavailableRow (actorRawCategorical hh ww p obs) mask = qs.map FVal.fin ∧
      (∀ q ∈ qs, 0 ≤ q) ∧ qs.sum = 1 := by
  refine ⟨(List.zipWith (· * ·) (actorRawCategorical hh ww p obs) mask).map
    (· / (List.zipWith (· * ·) (actorRawCategorical hh ww p obs) mask).sum), ?_, ?_, ?_⟩
  · rw [maskRow_eq_of_sum_ne _ _ hS]
  · intro q hq
    rcases List.mem_map.mp hq with ⟨x, hx, rfl⟩
    have hx0 : (0 : ℚ) ≤ x := by
      rcases exists_of_mem_zipWith hx with ⟨a, ha, b, hbm, rfl⟩
      have hb0 : (0 : ℚ) ≤ b := by rcases hb b hbm with h | h <;> simp [h]
      exact mul_nonneg (hraw a ha) hb0
    have hS0 : (0 : ℚ) ≤ (List.zipWith (· * ·) (actorRawCategorical hh ww p obs) mask).sum := by
      apply List.sum_nonneg
      intro y hy
      rcases exists_of_mem_zipWith hy with ⟨a, ha, b, hbm, rfl⟩
      have hb0 : (0 : ℚ) ≤ b := by rcases hb b hbm with h | h <;> simp [h]
      exact mul_nonneg (hraw a ha) hb0
    exact div_nonneg hx0 hS0
  · rw [sum_map_div, div_self hS]

/-- C3 counterexample: with all convolution weights zero and
`layer_action` dense bias `[-1, 2]`, the raw categorical output on the
all-zero observation of the architecture shapes is `[-1, 2]`; with the
non-degenerate mask `[1, 1]` the masked output is `[-1, 2]` — it sums
to 1 but has a negative entry, refuting non-negativity. -/
theorem C3_cex :
    (∀ m ∈ ([1, 1] : QVec), m = 0 ∨ m = 1) ∧ (([1, 1] : QVec).sum ≠ 0) ∧
    maskUnavailableRow (actorRawCategorical 1 1 (actorZeroP [-1, 2]) obsZero) [1, 1]
      = [FVal.fin (-1), FVal.fin 2] ∧
    ¬ (0 : ℚ) ≤ -1 := by
  refine ⟨by norm_num, by norm_num, ?_, by norm_num⟩
  rw [actorRaw_zeroP [-1, 2] rfl]
  show (List.zipWith (· * ·) [-1, 2] [1, 1]).map
      (fun x => fdivQ x (List.zipWith (· * ·) [-1, 2] [1, 1]).sum) = _
  norm_num [fdivQ]

/-- C3 witness: all-zero weights with non-negative dense bias `[1, 2]`
and mask `[1, 1]`. -/
theorem C3_masked_distribution_witness :
    (∀ q ∈ actorRawCategorical 1 1 (actorZeroP [1, 2]) obsZero, 0 ≤ q) ∧
    (∀ m ∈ ([1, 1] : QVec), m = 0 ∨ m = 1) ∧
    ((List.zipWith (· * ·) (actorRawCategorical 1 1 (actorZeroP [1, 2]) obsZero)
        [1, 1]).sum ≠ 0) ∧
    (∃ qs : QVec,
      maskUnavailableRow (actorRawCategorical 1 1 (actorZeroP [1, 2]) obsZero) [1, 1]
        = qs.map FVal.fin ∧ (∀ q ∈ qs, 0 ≤ q) ∧ qs.sum = 1) := by
  have h1 : ∀ q ∈ actorRawCategorical 1 1 (actorZeroP [1, 2]) obsZero, (0 : ℚ) ≤ q := by
    rw [actorRaw_zeroP [1, 2] rfl]
    norm_num
  have h2 : ∀ m ∈ ([1, 1] : QVec), m = 0 ∨ m = 1 := by norm_num
  have h3 : (List.zipWith (· * ·) (actorRawCategorical 1 1 (actorZeroP [1, 2]) obsZero)
      [1, 1]).sum ≠ 0 := by
    rw [actorRaw_zeroP [1, 2] rfl]
    norm_num
  exact ⟨h1, h2, h3, C3_masked_distribution 1 1 (actorZeroP [1, 2]) obsZero [1, 1] h1 h2 h3⟩

/-- C7: for consistent batch sizes, `CriticNet.forward` emits one
value vector per example, each of length 1 — the output of
`layer_value`, the dense layer with a single output unit — so the
batched output has shape (batch, 1). -/
theorem C7_value_shape (hh ww : Nat) (p : CriticParams) (obss : List Obs) (acts : List Act)
    (hw : p.valueW.length = 1) (hb : p.valueB.length = 1) (hlen : obss.length = acts.length) :
    (criticForwardBatch hh ww p obss acts).length = obss.length ∧
    ∀ v ∈ criticForwardBatch hh ww p obss acts, v.length = 1 := by
  constructor
  · simp [criticForwardBatch, hlen]
  · intro v hv
    rcases exists_of_mem_zipWith hv with ⟨o, _, a, _, rfl⟩
    show (linear p.valueW p.valueB
      (criticHiddenStage p (criticFused hh ww p o a))).length = 1
    simp [linear, hw, hb]

/-- C7 witness: the zero-weight critic on a singleton batch. -/
theorem C7_value_shape_witness :
    (criticZeroP.valueW.length = 1) ∧ (criticZeroP.valueB.length = 1) ∧
    ((criticForwardBatch 1 1 criticZeroP [obsZero] [actZero]).length = [obsZero].length ∧
      ∀ v ∈ criticForwardBatch 1 1 criticZeroP [obsZero] [actZero], v.length = 1) := by
  have hw : criticZeroP.valueW.length = 1 := by simp [criticZeroP]
  have hb : criticZeroP.valueB.length = 1 := by simp [criticZeroP, zerosQ]
  exact ⟨hw, hb, C7_value_shape 1 1 criticZeroP [obsZero] [actZero] hw hb rfl⟩

/-- C8: `CriticNet.forward` equals the fusion stage and final dense
layer applied to the channel-axis concatenation of the five encodings
in the order (minimap, screen, nonspatial observation, spatial action,
nonspatial action), and that concatenation has 32 x 5 = 160 channels. -/
theorem C8_fusion_order (hh ww : Nat) (p : CriticParams) (obs : Obs) (act : Act)
    (h1 : p.minimap_conv_layers.w2.length = 32) (h2 : p.minimap_conv_layers.b2.length = 32)
    (h3 : p.screen_conv_layers.w2.length = 32) (h4 : p.screen_conv_layers.b2.length = 32)
    (h5 : p.nonspatialW.length = 32) (h6 : p.nonspatialB.length = 32)
    (h7 : p.conv_action.w2.length = 32) (h8 : p.conv_action.b2.length = 32)
    (h9 : p.actionW.length = 32) (h10 : p.actionB.length = 32) :
    criticForward hh ww p obs act
      = linear p.valueW p.valueB (criticHiddenStage p (criticFused hh ww p obs act)) ∧
    (criticFused hh ww p obs act).length = 160 := by
  refine ⟨rfl, ?_⟩
  have henc : ∀ (q : ConvEncParams) (x : QT3), q.w2.length = 32 → q.b2.length = 32 →
      (convEncoder q x).length = 32 := by
    intro q x hqw hqb
    simp [convEncoder, reluT3, conv2d, hqw, hqb]
  have hm := henc p.minimap_conv_layers obs.minimap h1 h2
  have hsc := henc p.screen_conv_layers obs.screen h3 h4
  have ha := henc p.conv_action (act.screen1 ++ act.screen2) h7 h8
  have hn : (denseNonspatial hh ww p.nonspatialW p.nonspatialB obs.nonspatial).length = 32 := by
    simp [denseNonspatial, dense2conv, reluV, linear, h5, h6]
  have han : (denseNonspatial hh ww p.actionW p.actionB act.categorical).length = 32 := by
    simp [denseNonspatial, dense2conv, reluV, linear, h9, h10]
  show (convEncoder p.minimap_conv_layers obs.minimap
      ++ convEncoder p.screen_conv_layers obs.screen
      ++ denseNonspatial hh ww p.nonspatialW p.nonspatialB obs.nonspatial
      ++ convEncoder p.conv_action (act.screen1 ++ act.screen2)
      ++ denseNonspatial hh ww p.actionW p.actionB act.categorical).length = 160
  simp [List.length_append, hm, hsc, ha, hn, han]

/-- C8 witness: the zero-weight critic instance. -/
theorem C8_fusion_order_witness :
    (criticZeroP.minimap_conv_layers.w2.length = 32) ∧
    (criticZeroP.minimap_conv_layers.b2.length = 32) ∧
    (criticZeroP.screen_conv_layers.w2.length = 32) ∧
    (criticZeroP.screen_conv_layers.b2.length = 32) ∧
    (criticZeroP.nonspatialW.length = 32) ∧ (criticZeroP.nonspatialB.length = 32) ∧
    (criticZeroP.conv_action.w2.length = 32) ∧ (criticZeroP.conv_action.b2.length = 32) ∧
    (criticZeroP.actionW.length = 32) ∧ (criticZeroP.actionB.length = 32) ∧
    (criticForward 1 1 criticZeroP obsZero actZero
      = linear criticZeroP.valueW criticZeroP.valueB
          (criticHiddenStage criticZeroP (criticFused 1 1 criticZeroP obsZero actZero)) ∧
     (criticFused 1 1 criticZeroP obsZero actZero).length = 160) := by
  have e1 : criticZeroP.minimap_conv_layers.w2.length = 32 := by
    simp [criticZeroP, zeroEnc, zeroConvW]
  have e2 : criticZeroP.minimap_conv_layers.b2.length = 32 := by
    simp [criticZeroP, zeroEnc, zerosQ]
  have e3 : criticZeroP.screen_conv_layers.w2.length = 32 := by
    simp [criticZeroP, zeroEnc, zeroConvW]
  have e4 : criticZeroP.screen_conv_layers.b2.length = 32 := by
    simp [criticZeroP, zeroEnc, zerosQ]
  have e5 : criticZeroP.nonspatialW.length = 32 := by simp [criticZeroP]
  have e6 : criticZeroP.nonspatialB.length = 32 := by simp [criticZeroP, zerosQ]
  have e7 : criticZeroP.conv_action.w2.length = 32 := by
    simp [criticZeroP, zeroEnc, zeroConvW]
  have e8 : criticZeroP.conv_action.b2.length = 32 := by
    simp [criticZeroP, zeroEnc, zerosQ]
  have e9 : criticZeroP.actionW.length = 32 := by simp [criticZeroP]
  have e10 : criticZeroP.actionB.length = 32 := by simp [criticZeroP, zerosQ]
  exact ⟨e1, e2, e3, e4, e5, e6, e7, e8, e9, e10,
    C8_fusion_order 1 1 criticZeroP obsZero actZero e1 e2 e3 e4 e5 e6 e7 e8 e9 e10⟩

/-- C9: the renormalization of `_mask_unavailable_actions` divides a
`(batch, num_actions)` tensor by a `(batch,)` tensor of per-example
sums. Under PyTorch broadcasting this is only the intended per-example
division for batch size 1; for batch size greater than 1 and different
from `num_actions` (`num_actions > 1`) the shapes are incompatible and
the operation fails instead of broadcasting per example. -/
theorem C9_batch_broadcast (policy mask : QMat) (n : Nat)
    (hp : ∀ r ∈ policy, r.length = n) (hm : ∀ r ∈ mask, r.length = n)
    (hlen : mask.length = policy.length) :
    (∀ pr mr, policy = [pr] → mask = [mr] →
      maskUnavailableBatch policy mask = some [maskUnavailableRow pr mr]) ∧
    (1 < policy.length → policy.length ≠ n → 1 < n →
      maskUnavailableBatch policy mask = none) := by
  constructor
  · rintro pr mr rfl rfl
    show pydiv2 [List.zipWith (· * ·) pr mr]
        ([List.zipWith (· * ·) pr mr].map List.sum) = _
    rw [List.map_cons, List.map_nil, pydiv2_singleton]
    rfl
  · intro hb1 hbn hn1
    obtain ⟨pr, ptail, rfl⟩ : ∃ x xs, policy = x :: xs := by
      cases policy with
      | nil => simp at hb1
      | cons a l => exact ⟨a, l, rfl⟩
    obtain ⟨mr, mtail, rfl⟩ : ∃ x xs, mask = x :: xs := by
      cases mask with
      | nil => simp at hlen
      | cons a l => exact ⟨a, l, rfl⟩
    show pydiv2 (List.zipWith (fun a b => List.zipWith (· * ·) a b) (pr :: ptail) (mr :: mtail))
        ((List.zipWith (fun a b => List.zipWith (· * ·) a b) (pr :: ptail) (mr :: mtail)).map
          List.sum) = _
    have hpr : pr.length = n := hp pr (by simp)
    have hmr : mr.length = n := hm mr (by simp)
    have hmw : matW (List.zipWith (fun a b => List.zipWith (· * ·) a b)
        (pr :: ptail) (mr :: mtail)) = n := by
      simp [matW, hpr, hmr]
    simp only [pydiv2, hmw]
    rw [if_neg]
    intro h
    simp only [List.length_map, List.length_zipWith, List.length_cons] at h hbn hb1 hlen
    rcases h with h | h | h <;> omega

/-- C9 witness: batch size 1 normalizes per example; a (2, 3) input
fails. -/
theorem C9_batch_broadcast_witness :
    (maskUnavailableBatch [[2, 3]] [[1, 0]] = some [maskUnavailableRow [2, 3] [1, 0]]) ∧
    (maskUnavailableBatch [[1, 2, 3], [4, 5, 6]] [[0, 1, 1], [1, 1, 1]] = none) := by
  constructor
  · exact (C9_batch_broadcast [[2, 3]] [[1, 0]] 2 (by norm_num) (by norm_num) rfl).1
      [2, 3] [1, 0] rfl rfl
  · exact (C9_batch_broadcast [[1, 2, 3], [4, 5, 6]] [[0, 1, 1], [1, 1, 1]] 3
      (by norm_num) (by norm_num) rfl).2 (by norm_num) (by norm_num) (by norm_num)

/-- C2 counterexample: with the module-level encoders allocated
at import and one network of each kind constructed afterwards, the two
networks reference the same encoder storage; in particular storage id 0
(the first tensor of `conv_minimap`) is a parameter of both, so the
parameter sets are not disjoint. -/
theorem C2_cex :
    ((actorBuild 1 (fun _ => 0)).1.minimap_conv_layers
        = (criticBuild 2 (fun _ => 0)).1.minimap_conv_layers) ∧
    0 ∈ (actorBuild 1 (fun _ => 0)).1.paramIds ∧
    0 ∈ (criticBuild 2 (fun _ => 0)).1.paramIds := by
  refine ⟨rfl, ?_, ?_⟩ <;> decide

/-- C2 (amended): the three observation encoders (`conv_minimap`,
`conv_screen`, `dense_nonspatial`) are module-level singletons bound by
reference into every ActorNet and CriticNet, hence shared storage; only
the tensors each `__init__` allocates itself are disjoint between the
two networks. -/
theorem C2_encoder_sharing (g : GlobalModules) (c1 c2 e1 e2 : Nat) (st1 st2 : Store)
    (hc : c1 + 10 ≤ c2) :
    ((mkActorNet g c1 e1 st1).1.minimap_conv_layers
        = (mkCriticNet g c2 e2 st2).1.minimap_conv_layers) ∧
    ((mkActorNet g c1 e1 st1).1.screen_conv_layers
        = (mkCriticNet g c2 e2 st2).1.screen_conv_layers) ∧
    ((mkActorNet g c1 e1 st1).1.nonspatial_dense
        = (mkCriticNet g c2 e2 st2).1.nonspatial_dense) ∧
    ∀ i ∈ (mkActorNet g c1 e1 st1).1.ownIds, i ∉ (mkCriticNet g c2 e2 st2).1.ownIds := by
  refine ⟨rfl, rfl, rfl, ?_⟩
  intro i hi hic
  simp only [mkActorNet, ActorRefs.ownIds, List.mem_append, mem_allocSeq] at hi
  simp only [mkCriticNet, CriticRefs.ownIds, List.mem_append, mem_allocSeq] at hic
  omega

/-- C2 witness: the construction sequence of the program (globals
at import, actor at counter 10, critic at counter 20). -/
theorem C2_encoder_sharing_witness :
    (10 + 10 ≤ 20) ∧
    (((mkActorNet theGlobals 10 1 (fun _ => 0)).1.minimap_conv_layers
        = (mkCriticNet theGlobals 20 2 (fun _ => 0)).1.minimap_conv_layers) ∧
     ((mkActorNet theGlobals 10 1 (fun _ => 0)).1.screen_conv_layers
        = (mkCriticNet theGlobals 20 2 (fun _ => 0)).1.screen_conv_layers) ∧
     ((mkActorNet theGlobals 10 1 (fun _ => 0)).1.nonspatial_dense
        = (mkCriticNet theGlobals 20 2 (fun _ => 0)).1.nonspatial_dense) ∧
     ∀ i ∈ (mkActorNet theGlobals 10 1 (fun _ => 0)).1.ownIds,
       i ∉ (mkCriticNet theGlobals 20 2 (fun _ => 0)).1.ownIds) :=
  ⟨by norm_num,
    C2_encoder_sharing theGlobals 10 20 1 2 (fun _ => 0) (fun _ => 0) (by norm_num)⟩

/-- C10: constructing a network runs `self.apply(init_weights)` over
all submodules, the referenced module-level encoders included. In the
program order (import, then an ActorNet as initialization pass `e1`,
then a CriticNet as pass `e2`), every encoder parameter is written by
the actor construction and then rewritten by the critic construction,
so the encoder parameters of the previously built actor are mutated and
depend on construction order. -/
theorem C10_reinit (st : Store) (e1 e2 : Nat) (hne : e1 ≠ e2) :
    ∀ i ∈ theGlobals.conv_minimap ++ theGlobals.conv_screen ++ theGlobals.dense_nonspatial,
      (actorBuild e1 st).2.2 i = e1 ∧
      (criticBuild e2 ((actorBuild e1 st).2.2)).2.2 i = e2 ∧
      (criticBuild e2 ((actorBuild e1 st).2.2)).2.2 i ≠ (actorBuild e1 st).2.2 i := by
  intro i hi
  have hiA : i ∈ (mkActorNet theGlobals 10 e1 st).1.paramIds := by
    simp only [mkActorNet, ActorRefs.paramIds, ActorRefs.ownIds, theGlobals, importGlobals,
      List.mem_append, mem_allocSeq] at hi ⊢
    omega
  have hiC : i ∈ (mkCriticNet theGlobals 20 e2 ((actorBuild e1 st).2.2)).1.paramIds := by
    simp only [mkCriticNet, CriticRefs.paramIds, CriticRefs.ownIds, theGlobals, importGlobals,
      List.mem_append, mem_allocSeq] at hi ⊢
    omega
  have hA : (actorBuild e1 st).2.2 i = e1 :=
    applyInitWeights_mem e1 _ st i hiA
  have hC : (criticBuild e2 ((actorBuild e1 st).2.2)).2.2 i = e2 :=
    applyInitWeights_mem e2 _ ((actorBuild e1 st).2.2) i hiC
  refine ⟨hA, hC, ?_⟩
  rw [hA, hC]
  omega

/-- C10 witness: the zero store with passes 1 and 2. -/
theorem C10_reinit_witness :
    ((1 : Nat) ≠ 2) ∧
    ∀ i ∈ theGlobals.conv_minimap ++ theGlobals.conv_screen ++ theGlobals.dense_nonspatial,
      (actorBuild 1 (fun _ => 0)).2.2 i = 1 ∧
      (criticBuild 2 ((actorBuild 1 (fun _ => 0)).2.2)).2.2 i = 2 ∧
      (criticBuild 2 ((actorBuild 1 (fun _ => 0)).2.2)).2.2 i
        ≠ (actorBuild 1 (fun _ => 0)).2.2 i :=
  ⟨by decide, C10_reinit (fun _ => 0) 1 2 (by decide)⟩

end RLNet
